import Mathlib

/-!
Verification of the personal finance tracker's transaction store, validator
and analytics core (`data_manager.py`, `finance_calculator.py`,
`advancedFeatureManager.py`) against its specification.

Modelling conventions:
* Python floats are modelled as `PyFloat`: an exact rational (abstracting
  binary rounding) or NaN.  `float("nan")` is a real input (a user typing
  "nan", or an empty CSV cell read by pandas), and NaN's comparison
  semantics (`nan <= 0` is `False`) is behaviour the validator depends on.
  Infinities are not modelled.
* Persistence (`save_data`) is abstracted by a boolean parameter `saveOk`
  giving the result of the attempted disk write; mutating operations thread
  the in-memory transaction list explicitly and return (result, new list).
* Timestamps (`datetime.utcnow()`), fresh ids (`uuid`), and "now" for the
  current calendar month are nondeterministic inputs and appear as
  parameters.
* `statistics.stdev` computes a square root, which is not rational; the
  anomaly detector takes the standard-deviation value as a parameter
  `stdDev`.  Concrete theorems instantiate it with stores whose sample
  variance is a perfect square, and record `sampleVariance` explicitly.
* String helpers (`strptime`-style date parsing, `str.strip`, `str.lower`,
  lexicographic comparison used by `list.sort`) are implemented over
  `String.data` by structural recursion so the kernel can evaluate them.
-/

/-- Python float values as they matter to this program: an exact rational
(abstracting binary floating-point rounding), or NaN. -/
inductive PyFloat where
  | num (q : ℚ)
  | nan
deriving DecidableEq

/-- Python `x + y` on floats; NaN is absorbing. -/
def pfAdd : PyFloat → PyFloat → PyFloat
  | .num a, .num b => .num (a + b)
  | _, _ => .nan

/-- Python `x - y` on floats. -/
def pfSub : PyFloat → PyFloat → PyFloat
  | .num a, .num b => .num (a - b)
  | _, _ => .nan

/-- Python `x * y` on floats. -/
def pfMul : PyFloat → PyFloat → PyFloat
  | .num a, .num b => .num (a * b)
  | _, _ => .nan

/-- Python `x / y` on floats.  Every division in the embedded code is
guarded by a strict-positivity test on the denominator, so the rational
division's `q / 0 = 0` convention is never exercised. -/
def pfDiv : PyFloat → PyFloat → PyFloat
  | .num a, .num b => .num (a / b)
  | _, _ => .nan

/-- Python `x < y` on floats: any comparison with NaN is `False`. -/
def pfLt : PyFloat → PyFloat → Bool
  | .num a, .num b => decide (a < b)
  | _, _ => false

/-- Python `x <= y` on floats: any comparison with NaN is `False`. -/
def pfLe : PyFloat → PyFloat → Bool
  | .num a, .num b => decide (a ≤ b)
  | _, _ => false

/-- Python `x > y` on floats. -/
def pfGt (a b : PyFloat) : Bool := pfLt b a

/-- Python `x >= y` on floats. -/
def pfGe (a b : PyFloat) : Bool := pfLe b a

/-- Python `max(0, v)`: `v` is kept only when it compares greater than 0,
so `max(0, nan) = 0`. -/
def pyMax0 (v : PyFloat) : PyFloat := if pfGt v (.num 0) then v else .num 0

/-- The rational carried by a numeric float, 0 for NaN.  Used only as a
sort key; the anomaly lists being sorted provably contain no NaN. -/
def qOf : PyFloat → ℚ
  | .num q => q
  | .nan => 0

/-- Python `round(x, 2)`: scale by 100 and round half to even (NaN rounds
to NaN). -/
def pyRound2 : PyFloat → PyFloat
  | .nan => .nan
  | .num x =>
    let y : ℚ := x * 100
    let fl : ℤ := Int.floor y
    let frac : ℚ := y - fl
    let r : ℤ :=
      if frac < 1/2 then fl
      else if 1/2 < frac then fl + 1
      else if fl % 2 = 0 then fl else fl + 1
    .num ((r : ℚ) / 100)

/-- Sum of a float list as Python builds it (`sum(xs)` starts from 0). -/
def pfSum (l : List PyFloat) : PyFloat := l.foldl pfAdd (.num 0)

/-- Sample variance `Σ (x - mean)² / (n - 1)` of a rational list, recorded
alongside concrete anomaly-detection results to pin down what
`statistics.stdev` (its square root) returns there. -/
def sampleVariance (l : List ℚ) : ℚ :=
  let n : ℚ := l.length
  let m : ℚ := l.foldl (· + ·) 0 / n
  (l.foldl (fun acc x => acc + (x - m) ^ 2) 0) / (n - 1)

/-- A calendar date as produced by `datetime.strptime(s, "%Y-%m-%d")`. -/
structure PDate where
  year : ℕ
  month : ℕ
  day : ℕ
deriving DecidableEq

/-- Strict `datetime` comparison: lexicographic on (year, month, day). -/
def pdateLt (a b : PDate) : Bool :=
  decide (a.year < b.year) ||
    (a.year == b.year &&
      (decide (a.month < b.month) ||
        (a.month == b.month && decide (a.day < b.day))))

/-- Non-strict `datetime` comparison. -/
def pdateLe (a b : PDate) : Bool := !(pdateLt b a)

/-- Gregorian leap year, as `datetime` checks it. -/
def isLeapYear (y : ℕ) : Bool := (y % 4 == 0 && y % 100 != 0) || y % 400 == 0

/-- Days in a month, as `datetime` validates the day component. -/
def daysInMonth (y m : ℕ) : ℕ :=
  if m == 2 then (if isLeapYear y then 29 else 28)
  else if m == 4 || m == 6 || m == 9 || m == 11 then 30
  else 31

/-- Split a character list at every dash, modelling how the `strptime`
format `"%Y-%m-%d"` cuts the input at its literal dashes. -/
def splitDash : List Char → List (List Char)
  | [] => [[]]
  | c :: rest =>
    let r := splitDash rest
    if c = '-' then [] :: r
    else
      match r with
      | [] => [[c]]
      | h :: t => (c :: h) :: t

/-- Numeric value of a digit string. -/
def digitsToNat (cs : List Char) : ℕ :=
  cs.foldl (fun n c => 10 * n + (c.toNat - '0'.toNat)) 0

/-- Model of `datetime.strptime(s, "%Y-%m-%d")`, returning `none` where Python
raises `ValueError`.  CPython's compiled pattern demands exactly 4 digits
for `%Y` but accepts 1- or 2-digit month and day components (`"2024-1-5"`
parses), requires the whole string to be consumed, and the `datetime`
constructor then range-checks the components (year ≥ 1, month 1–12, day
1–`daysInMonth`). -/
def parseDate (s : String) : Option PDate :=
  match splitDash s.data with
  | [ys, ms, ds] =>
    if ys.length == 4 && ys.all Char.isDigit
        && (ms.length == 1 || ms.length == 2) && ms.all Char.isDigit
        && (ds.length == 1 || ds.length == 2) && ds.all Char.isDigit then
      let y := digitsToNat ys
      let m := digitsToNat ms
      let d := digitsToNat ds
      if 1 ≤ y && 1 ≤ m && m ≤ 12 && 1 ≤ d && d ≤ daysInMonth y m then
        some ⟨y, m, d⟩
      else none
    else none
  | _ => none

/-- ASCII whitespace stripped by `str.strip()` (the Unicode-only space
characters Python also strips do not occur in this program's data). -/
def isSpaceCh (c : Char) : Bool :=
  c == ' ' || c == '\t' || c == '\n' || c == '\r'

/-- Python `s.strip()`. -/
def pyStrip (s : String) : String :=
  ⟨((s.data.dropWhile isSpaceCh).reverse.dropWhile isSpaceCh).reverse⟩

/-- Python `s.lower()` (ASCII case mapping; the kinds compared here are
ASCII). -/
def pyLower (s : String) : String := ⟨s.data.map Char.toLower⟩

/-- Lexicographic comparison of character lists by code point, as Python
compares strings. -/
def charsLe : List Char → List Char → Bool
  | [], _ => true
  | _ :: _, [] => false
  | a :: as, b :: bs =>
    decide (a.toNat < b.toNat) || (a.toNat == b.toNat && charsLe as bs)

/-- Python `a <= b` on strings. -/
def strLeB (a b : String) : Bool := charsLe a.data b.data

/-- Result of applying Python's `float(...)` to a candidate amount value:
either the converted float, or the `ValueError`/`TypeError` message raised
for a non-numeric value. -/
inductive AmtConv where
  | conv (f : PyFloat)
  | convFail (msg : String)
deriving DecidableEq

/-- A candidate transaction as passed to `validate_transaction` /
`add_transaction`: a dict that may lack any of the five required keys.
The `date`, `type` (here `kind`), `category` and `description` values are
modelled after the `str(...)` coercion the code applies to them; `amount`
carries the outcome of `float(...)`. -/
structure Candidate where
  date : Option String := none
  kind : Option String := none
  category : Option String := none
  amount : Option AmtConv := none
  description : Option String := none
deriving DecidableEq

/-- A stored transaction record, as built by `add_transaction`. -/
structure Txn where
  id : String
  date : String
  kind : String
  category : String
  amount : PyFloat
  description : String
  created_at : String := ""
  last_modified : Option String := none
deriving DecidableEq

/-- Model of `DataManager.validate_transaction`: all five required keys present,
date parses as `%Y-%m-%d`, kind is exactly `income` or `expense`, the
amount converts and is not `<= 0`, and the stripped category is nonempty.
Conversion failures become a `false` result (the `except` clause). -/
def validate_transaction (c : Candidate) : Bool :=
  match c.date, c.kind, c.category, c.amount, c.description with
  | some dt, some k, some cat, some amt, some _desc =>
    match parseDate dt with
    | none => false
    | some _ =>
      if !(k == "income" || k == "expense") then false
      else
        match amt with
        | .convFail _ => false
        | .conv f =>
          if pfLe f (.num 0) then false
          else if pyStrip cat == "" then false
          else true
  | _, _, _, _, _ => false

/-- Model of `DataManager.add_transaction`: validate, append a record carrying a
fresh id and creation timestamp, then persist; returns the persistence
result.  On validation failure returns `false` without touching the list.
(The inner match is exhaustive but its catch-all is unreachable once
validation succeeded.) -/
def add_transaction (ts : List Txn) (c : Candidate) (newId now : String)
    (saveOk : Bool) : Bool × List Txn :=
  if validate_transaction c then
    match c.date, c.kind, c.category, c.amount, c.description with
    | some dt, some k, some cat, some (.conv f), some desc =>
      (saveOk, ts ++ [{ id := newId, date := dt, kind := k, category := cat,
                        amount := f, description := desc, created_at := now }])
    | _, _, _, _, _ => (false, ts)
  else (false, ts)

/-- A patch passed to `update_transaction`: any subset of the five
schema fields (patches touching non-schema keys such as `id` are outside
the behaviour the spec discusses and are not modelled). -/
structure Patch where
  date : Option String := none
  kind : Option String := none
  category : Option String := none
  amount : Option AmtConv := none
  description : Option String := none
deriving DecidableEq

/-- The merged dict `{**t, **patch}` as a candidate for re-validation. -/
def mergeCandidate (t : Txn) (p : Patch) : Candidate :=
  { date := some (p.date.getD t.date)
    kind := some (p.kind.getD t.kind)
    category := some (p.category.getD t.category)
    amount := some (p.amount.getD (.conv t.amount))
    description := some (p.description.getD t.description) }

/-- Float value of a conversion result (callers only use it after
validation has ruled out the failure case). -/
def amtValOf : AmtConv → PyFloat
  | .conv f => f
  | .convFail _ => .nan

/-- The merged record committed by a successful update: patched fields,
`amount` coerced via `float(...)`, `last_modified` stamped. -/
def mergedTxn (t : Txn) (p : Patch) (stamp : String) : Txn :=
  { id := t.id
    date := p.date.getD t.date
    kind := p.kind.getD t.kind
    category := p.category.getD t.category
    amount := amtValOf (p.amount.getD (.conv t.amount))
    description := p.description.getD t.description
    created_at := t.created_at
    last_modified := some stamp }

/-- Model of `DataManager.update_transaction`: walk the list for the first record
with the given id; merge the patch over it, re-validate the merged record,
and only on success replace it (stamping `last_modified`) and persist.
Returns `false` when no record matches or the merged record is invalid. -/
def update_transaction : List Txn → String → Patch → String → Bool → Bool × List Txn
  | [], _, _, _, _ => (false, [])
  | t :: rest, tid, p, stamp, saveOk =>
    if t.id == tid then
      if validate_transaction (mergeCandidate t p) then
        (saveOk, mergedTxn t p stamp :: rest)
      else (false, t :: rest)
    else
      let r := update_transaction rest tid p stamp saveOk
      (r.1, t :: r.2)

/-- Model of `DataManager.delete_transaction`: filter out records with the id;
persist only when the list actually shrank. -/
def delete_transaction (ts : List Txn) (tid : String) (saveOk : Bool) :
    Bool × List Txn :=
  let remaining := ts.filter (fun t => !(t.id == tid))
  if remaining.length < ts.length then (saveOk, remaining)
  else (false, remaining)

/-- The per-record filter of `DataManager.get_transactions`: records whose
stored date fails to parse are skipped (the quiet `except ... continue`);
date bounds are inclusive; a `None` (or Python-falsy empty-string) kind or
category filter matches everything. -/
def txnPasses (startD endD : Option PDate) (kindF catF : Option String)
    (t : Txn) : Bool :=
  match parseDate t.date with
  | none => false
  | some d =>
    (match startD with | none => true | some s => !(pdateLt d s))
    && (match endD with | none => true | some e => !(pdateLt e d))
    && (match kindF with | none => true | some k => k == "" || t.kind == k)
    && (match catF with | none => true | some cg => cg == "" || t.category == cg)

/-- Sort relation of `get_transactions`: `out.sort(key=lambda x: x["date"])`
compares the raw date strings lexicographically. -/
def dateStrLe (a b : Txn) : Prop := strLeB a.date b.date = true

instance : DecidableRel dateStrLe :=
  fun a b => inferInstanceAs (Decidable (strLeB a.date b.date = true))

/-- Model of `DataManager.get_transactions`: filter, then a stable sort by the date
string, returning fresh copies (aliasing is invisible in this pure model;
the tie order among equal date strings is not load-bearing for any claim,
so a plain insertion sort stands in for Python's stable sort). -/
def get_transactions (ts : List Txn) (startD endD : Option PDate)
    (kindF catF : Option String) : List Txn :=
  List.insertionSort dateStrLe (ts.filter (txnPasses startD endD kindF catF))

/-- Result shape of `FinanceCalculator.calculate_balance`. -/
structure BalanceResult where
  total_income : PyFloat
  total_expense : PyFloat
  balance : PyFloat
  transaction_count : ℕ
deriving DecidableEq

/-- One step of `calculate_balance`'s accumulation loop: add the amount to
the income or expense total according to the lowercased kind. -/
def balStep (acc : PyFloat × PyFloat) (t : Txn) : PyFloat × PyFloat :=
  if pyLower t.kind == "income" then (pfAdd acc.1 t.amount, acc.2)
  else if pyLower t.kind == "expense" then (acc.1, pfAdd acc.2 t.amount)
  else acc

/-- Model of `FinanceCalculator.calculate_balance`: sum amounts by kind over the
date-filtered query result; `balance = total_income - total_expense`;
`transaction_count` counts the whole filtered set. -/
def calculate_balance (ts : List Txn) (startD endD : Option PDate) :
    BalanceResult :=
  let txns := get_transactions ts startD endD none none
  let s := txns.foldl balStep (.num 0, .num 0)
  { total_income := s.1
    total_expense := s.2
    balance := pfSub s.1 s.2
    transaction_count := txns.length }

/-- An entry of `detect_anomalies`' result (`transaction`, `deviation`,
`threshold`, the latter two rounded to two decimals). -/
structure Anomaly where
  transaction : Txn
  deviation : PyFloat
  threshold : PyFloat
deriving DecidableEq

/-- The expense transactions `detect_anomalies` works over: the full query
result (malformed stored dates already skipped), kept when the lowercased
kind is `expense`. -/
def expenseTxns (ts : List Txn) : List Txn :=
  (get_transactions ts none none none none).filter
    (fun t => pyLower t.kind == "expense")

/-- Mean (`statistics.mean`) of the expense amounts: their sum over their count. -/
def expenseMean (ts : List Txn) : PyFloat :=
  pfDiv (pfSum ((expenseTxns ts).map (·.amount)))
    (.num (((expenseTxns ts).map (·.amount)).length : ℚ))

/-- The anomaly cutoff `mean + threshold_multiplier * std_dev`. -/
def anomalyThreshold (ts : List Txn) (stdDev mult : PyFloat) : PyFloat :=
  pfAdd (expenseMean ts) (pfMul mult stdDev)

/-- Descending-deviation sort relation used on the anomaly list.  The list
being sorted provably contains only numeric deviations, on which this
coincides with Python's `sort(key=deviation, reverse=True)`; comparing via
the rational projection `qOf` makes the relation total and transitive. -/
def devGe (a b : Anomaly) : Prop := qOf b.deviation ≤ qOf a.deviation

instance : DecidableRel devGe :=
  fun a b => inferInstanceAs (Decidable (qOf b.deviation ≤ qOf a.deviation))

/-- Model of `FinanceCalculator.detect_anomalies`.  `stdDev` is the value of
`statistics.stdev(amounts)` (a square root, hence a parameter here; the
source's `len(amounts) == 1` special case is dead code behind the `< 3`
guard and is not modelled).  A transaction is anomalous when its amount
strictly exceeds the unrounded threshold; its recorded deviation is
`(amount - mean) / std_dev` (0 when `std_dev > 0` fails) rounded to two
decimals, and entries are sorted by descending deviation. -/
def detect_anomalies (ts : List Txn) (stdDev mult : PyFloat) : List Anomaly :=
  if (expenseTxns ts).length < 3 then []
  else
    List.insertionSort devGe
      ((expenseTxns ts).filterMap (fun t =>
        if pfGt t.amount (anomalyThreshold ts stdDev mult) then
          some { transaction := t
                 deviation := pyRound2
                   (if pfGt stdDev (.num 0) then
                      pfDiv (pfSub t.amount (expenseMean ts)) stdDev
                    else .num 0)
                 threshold := pyRound2 (anomalyThreshold ts stdDev mult) }
        else none))

/-- An entry of `setup_budget_alerts`' result.  The `message` field is
presentation text built by `generate_budget_message` from the same numbers
and is not modelled. -/
structure BudgetAlert where
  category : String
  budget : PyFloat
  spent : PyFloat
  remaining : PyFloat
  percentage : PyFloat
  level : String
deriving DecidableEq

/-- Model of `AdvancedFeaturesManager.get_category_spending`: sum of amounts of
transactions in `[month_start, now]` whose kind is exactly `expense` and
whose category matches exactly. -/
def get_category_spending (ts : List Txn) (cat : String)
    (monthStart now : PDate) : PyFloat :=
  pfSum (((get_transactions ts (some monthStart) (some now) none none).filter
    (fun t => t.kind == "expense" && t.category == cat)).map (·.amount))

/-- Model of `AdvancedFeaturesManager.setup_budget_alerts`: for each configured
budget, compute the current-calendar-month spend and its percentage of the
budget (0 when the budget is not positive); emit an alert only at ≥ 60%
usage, with level `critical` at ≥ 100%, `warning` at ≥ 80%, else `info`. -/
def setup_budget_alerts (ts : List Txn) (budgets : List (String × PyFloat))
    (monthStart now : PDate) : List BudgetAlert :=
  budgets.filterMap (fun b =>
    let monthSpending := get_category_spending ts b.1 monthStart now
    let usagePercent :=
      if pfGt b.2 (.num 0) then pfMul (pfDiv monthSpending b.2) (.num 100)
      else .num 0
    let alertLevel :=
      if pfGe usagePercent (.num 100) then "critical"
      else if pfGe usagePercent (.num 80) then "warning"
      else "info"
    if pfGe usagePercent (.num 60) then
      some { category := b.1
             budget := b.2
             spent := monthSpending
             remaining := pyMax0 (pfSub b.2 monthSpending)
             percentage := usagePercent
             level := alertLevel }
    else none)

/-- One CSV data row as `import_from_csv` reads it: the four text fields
after `str(...)`, and the outcome of `float(row["amount"])`. -/
structure CsvRow where
  date : String
  kind : String
  category : String
  amount : AmtConv
  description : String
deriving DecidableEq

/-- Result shape of `import_from_csv`. -/
structure ImportResult where
  success : Bool
  imported_count : ℕ
  failed_count : ℕ
  errors : List String
deriving DecidableEq

/-- The five CSV columns `import_from_csv` requires. -/
def requiredColumns : List String :=
  ["date", "type", "category", "amount", "description"]

/-- A single-quote character, for rendering Python list reprs. -/
def sqChar : String := ⟨[Char.ofNat 39]⟩

/-- Comma-space join, as Python's list repr separates elements. -/
def joinComma : List String → String
  | [] => ""
  | [s] => s
  | s :: rest => s ++ ", " ++ joinComma rest

/-- Python's `repr` of a list of plain strings, as interpolated into the
missing-columns error message. -/
def pyStrListRepr (l : List String) : String :=
  "[" ++ joinComma (l.map (fun s => sqChar ++ s ++ sqChar)) ++ "]"

/-- Accumulator state of the import loop. -/
structure ImpState where
  imported : ℕ
  failed : ℕ
  errors : List String
  store : List Txn
deriving DecidableEq

/-- The row loop of `import_from_csv`: each row is lowercased on `type`,
converted, and fed through `add_transaction`; a conversion error or a
failed add increments `failed` and appends a 1-based `Row i: ...` message;
no failure aborts the remaining rows. -/
def importRows (mkId : ℕ → String) (now : String) (saveOk : Bool) :
    List CsvRow → ℕ → ImpState → ImpState
  | [], _, st => st
  | r :: rest, idx, st =>
    match r.amount with
    | .convFail msg =>
      importRows mkId now saveOk rest (idx + 1)
        { st with failed := st.failed + 1
                  errors := st.errors ++
                    ["Row " ++ toString (idx + 1) ++ ": " ++ msg] }
    | .conv f =>
      let cand : Candidate :=
        { date := some r.date, kind := some (pyLower r.kind)
          category := some r.category, amount := some (.conv f)
          description := some r.description }
      let res := add_transaction st.store cand (mkId idx) now saveOk
      if res.1 then
        importRows mkId now saveOk rest (idx + 1)
          { st with imported := st.imported + 1, store := res.2 }
      else
        importRows mkId now saveOk rest (idx + 1)
          { st with failed := st.failed + 1
                    errors := st.errors ++
                      ["Row " ++ toString (idx + 1) ++ ": invalid transaction data"]
                    store := res.2 }

/-- Model of `DataManager.import_from_csv`: when any required column is absent from
the header the whole import short-circuits with a single
`Missing required columns: [...]` error and zero imports; otherwise every
row runs through the loop, and overall success means at least one import
and zero failures. -/
def import_from_csv (ts : List Txn) (header : List String)
    (rows : List CsvRow) (mkId : ℕ → String) (now : String) (saveOk : Bool) :
    ImportResult × List Txn :=
  let missing := requiredColumns.filter (fun c => !(header.contains c))
  if missing.isEmpty then
    let st := importRows mkId now saveOk rows 0 ⟨0, 0, [], ts⟩
    ({ success := decide (st.imported > 0) && st.failed == 0
       imported_count := st.imported
       failed_count := st.failed
       errors := st.errors }, st.store)
  else
    ({ success := false, imported_count := 0, failed_count := 0
       errors := ["Missing required columns: " ++ pyStrListRepr missing] }, ts)

/-- Spec-side validity predicate of claim C1/C2: all five keys present,
date parses, kind exactly `income`/`expense`, amount converts to a number
strictly greater than zero, stripped category nonempty. -/
def specValid (c : Candidate) : Bool :=
  (c.date.isSome && c.kind.isSome && c.category.isSome && c.amount.isSome
    && c.description.isSome)
  && (match c.date with | some d => (parseDate d).isSome | none => false)
  && (match c.kind with | some k => k == "income" || k == "expense" | none => false)
  && (match c.amount with
      | some (.conv (.num q)) => decide (0 < q)
      | _ => false)
  && (match c.category with | some cat => !(pyStrip cat == "") | none => false)

/-- Spec-side predicate matching claim C2's list of invalid candidates:
missing a required field, amount ≤ 0, unparsable date, or kind outside
the two exact literals. -/
def specInvalidC2 (c : Candidate) : Bool :=
  !(c.date.isSome && c.kind.isSome && c.category.isSome && c.amount.isSome
      && c.description.isSome)
  || (match c.amount with
      | some (.conv (.num q)) => decide (q ≤ 0)
      | _ => false)
  || (match c.date with | some d => (parseDate d).isNone | none => false)
  || (match c.kind with
      | some k => !(k == "income" || k == "expense")
      | none => false)

/-- The validator's behaviour as a flat conjunction (the amended C1 shape):
identical to `specValid` except that the amount only has to fail the
`amt <= 0` comparison, which NaN does. -/
def validCode (c : Candidate) : Bool :=
  (c.date.isSome && c.kind.isSome && c.category.isSome && c.amount.isSome
    && c.description.isSome)
  && (match c.date with | some d => (parseDate d).isSome | none => false)
  && (match c.kind with | some k => k == "income" || k == "expense" | none => false)
  && (match c.amount with
      | some (.conv f) => !(pfLe f (.num 0))
      | _ => false)
  && (match c.category with | some cat => !(pyStrip cat == "") | none => false)

/-- Ascending-by-parsed-date check used to state C8's ordering clause on a
concrete query result (adjacent entries whose dates both parse must be in
chronological order). -/
def ascendingByDate : List Txn → Bool
  | a :: b :: r =>
    (match parseDate a.date, parseDate b.date with
     | some da, some db => pdateLe da db
     | _, _ => true) && ascendingByDate (b :: r)
  | _ => true

/-! Concrete fixtures used by witnesses and counterexamples. -/

/-- A plainly valid candidate. -/
def cOk : Candidate :=
  { date := some "2024-01-01", kind := some "expense", category := some "Food",
    amount := some (.conv (.num 50)), description := some "Lunch" }

/-- A candidate whose amount is `float("nan")` (e.g. the text `nan`, or an
empty CSV cell read by pandas): every required key present, date parses,
kind exact, category nonempty. -/
def cNan : Candidate :=
  { date := some "2024-01-01", kind := some "expense", category := some "Food",
    amount := some (.conv .nan), description := some "" }

/-- Candidate `cOk` with the amount patched to zero (invalid). -/
def cZero : Candidate := { cOk with amount := some (.conv (.num 0)) }

/-- The spec's concrete balance scenario: one income of 1000 and expenses
of 100 and 50 on consecutive days. -/
def store3 : List Txn :=
  [ { id := "T1", date := "2024-01-01", kind := "income", category := "Salary",
      amount := .num 1000, description := "pay" },
    { id := "T2", date := "2024-01-02", kind := "expense", category := "Food",
      amount := .num 100, description := "lunch" },
    { id := "T3", date := "2024-01-03", kind := "expense",
      category := "Transport", amount := .num 50, description := "bus" } ]

/-- A stored record with a non-zero-padded (but `strptime`-valid) date. -/
def t8a : Txn :=
  { id := "A", date := "2024-1-5", kind := "expense", category := "Food",
    amount := .num 5, description := "" }

/-- A stored record one day later than `t8a`, zero-padded. -/
def t8b : Txn :=
  { id := "B", date := "2024-01-06", kind := "expense", category := "Food",
    amount := .num 6, description := "" }

/-- Store exercising the date-string sort of `get_transactions`. -/
def ce8 : List Txn := [t8a, t8b]

/-- Five expense transactions with amounts 15, 7, 9, 9, 10: mean 10 and
sample variance 9, so `statistics.stdev` returns exactly 3. -/
def ce5 : List Txn :=
  [ { id := "E1", date := "2024-02-01", kind := "expense", category := "Misc",
      amount := .num 15, description := "a" },
    { id := "E2", date := "2024-02-02", kind := "expense", category := "Misc",
      amount := .num 7, description := "b" },
    { id := "E3", date := "2024-02-03", kind := "expense", category := "Misc",
      amount := .num 9, description := "c" },
    { id := "E4", date := "2024-02-04", kind := "expense", category := "Misc",
      amount := .num 9, description := "d" },
    { id := "E5", date := "2024-02-05", kind := "expense", category := "Misc",
      amount := .num 10, description := "e" } ]

/-- The single-anomaly entry `detect_anomalies` produces on `ce5` with
`stdDev = 3` and multiplier 1: threshold 13, deviation 5/3 rounded. -/
def a5 : Anomaly :=
  { transaction :=
      { id := "E1", date := "2024-02-01", kind := "expense",
        category := "Misc", amount := .num 15, description := "a" },
    deviation := .num (167/100), threshold := .num 13 }

/-- The spec's budget-alert scenario store: 250 of `Food` expense inside
January 2024. -/
def ce9 : List Txn :=
  [ { id := "F1", date := "2024-01-15", kind := "expense", category := "Food",
      amount := .num 250, description := "groceries" } ]

/-- The alert the scenario produces: 250/300 usage, level `warning`. -/
def alert9 : BudgetAlert :=
  { category := "Food", budget := .num 300, spent := .num 250,
    remaining := .num 50, percentage := .num (250/3), level := "warning" }

/-- A CSV row valid except that its type is capitalised. -/
def row10 : CsvRow :=
  { date := "2024-03-05", kind := "Income", category := "Salary",
    amount := .conv (.num 1000), description := "pay" }

/-- Deterministic id supply for import runs. -/
def mkIdF (i : ℕ) : String := "TXN_" ++ toString i


/-! Helper lemmas about the embedded operations. -/

theorem pfAdd_comm (a b : PyFloat) : pfAdd a b = pfAdd b a := by
  cases a <;> cases b <;> simp [pfAdd, Rat.add_comm]

theorem pfAdd_assoc (a b c : PyFloat) :
    pfAdd (pfAdd a b) c = pfAdd a (pfAdd b c) := by
  cases a <;> cases b <;> cases c <;> simp [pfAdd, Rat.add_assoc]

theorem pfAdd_zero_right (a : PyFloat) : pfAdd a (.num 0) = a := by
  cases a <;> simp [pfAdd]

theorem pfAdd_right_comm (a x y : PyFloat) :
    pfAdd (pfAdd a x) y = pfAdd (pfAdd a y) x := by
  rw [pfAdd_assoc, pfAdd_assoc, pfAdd_comm x y]

theorem charsLe_trans :
    ∀ a b c, charsLe a b = true → charsLe b c = true → charsLe a c = true
  | [], _, _, _, _ => rfl
  | _ :: _, [], _, h, _ => by simp [charsLe] at h
  | _ :: _, _ :: _, [], _, h => by simp [charsLe] at h
  | a :: as, b :: bs, c :: cs, h1, h2 => by
    simp only [charsLe, Bool.or_eq_true, Bool.and_eq_true, decide_eq_true_eq,
      beq_iff_eq] at h1 h2 ⊢
    rcases h1 with h1 | ⟨e1, r1⟩
    · rcases h2 with h2 | ⟨e2, r2⟩
      · exact Or.inl (by omega)
      · exact Or.inl (by omega)
    · rcases h2 with h2 | ⟨e2, r2⟩
      · exact Or.inl (by omega)
      · exact Or.inr ⟨by omega, charsLe_trans as bs cs r1 r2⟩

theorem charsLe_total : ∀ a b, charsLe a b = true ∨ charsLe b a = true
  | [], _ => Or.inl rfl
  | _ :: _, [] => Or.inr rfl
  | a :: as, b :: bs => by
    simp only [charsLe, Bool.or_eq_true, Bool.and_eq_true, decide_eq_true_eq,
      beq_iff_eq]
    rcases Nat.lt_trichotomy a.toNat b.toNat with h | h | h
    · exact Or.inl (Or.inl h)
    · rcases charsLe_total as bs with r | r
      · exact Or.inl (Or.inr ⟨h, r⟩)
      · exact Or.inr (Or.inr ⟨h.symm, r⟩)
    · exact Or.inr (Or.inl h)

instance : IsTotal Txn dateStrLe :=
  ⟨fun a b => charsLe_total a.date.data b.date.data⟩

instance : IsTrans Txn dateStrLe :=
  ⟨fun a b c => charsLe_trans a.date.data b.date.data c.date.data⟩

instance : IsTotal Anomaly devGe :=
  ⟨fun a b => le_total (qOf b.deviation) (qOf a.deviation)⟩

instance : IsTrans Anomaly devGe :=
  ⟨fun _ _ _ h1 h2 => le_trans h2 h1⟩

theorem get_transactions_perm (ts : List Txn) (sd ed : Option PDate)
    (kf cf : Option String) :
    (get_transactions ts sd ed kf cf).Perm (ts.filter (txnPasses sd ed kf cf)) :=
  List.perm_insertionSort _ _

theorem get_transactions_sorted (ts : List Txn) (sd ed : Option PDate)
    (kf cf : Option String) :
    (get_transactions ts sd ed kf cf).Sorted dateStrLe :=
  List.sorted_insertionSort _ _

theorem mem_get_transactions {ts : List Txn} {sd ed : Option PDate}
    {kf cf : Option String} {t : Txn} :
    t ∈ get_transactions ts sd ed kf cf ↔
      t ∈ ts ∧ txnPasses sd ed kf cf t = true := by
  rw [(get_transactions_perm ts sd ed kf cf).mem_iff, List.mem_filter]

theorem validate_eq_validCode (c : Candidate) :
    validate_transaction c = validCode c := by
  obtain ⟨d, k, cat, a, ds⟩ := c
  cases d <;> cases k <;> cases cat <;> cases a <;> cases ds <;>
    simp only [validate_transaction, validCode, Option.isSome, Bool.false_and,
      Bool.and_false, Bool.true_and, Bool.and_true] <;> try rfl
  rename_i dt k cat a ds
  cases hp : parseDate dt <;> cases a <;>
    simp only [hp, Option.isSome, Bool.false_and, Bool.and_false, Bool.true_and,
      Bool.and_true] <;> try rfl
  case some.convFail => split; rfl; rfl
  rename_i f
  cases hk : (k == "income" || k == "expense") <;>
    cases hle : pfLe f (.num 0) <;>
    cases hcat : (pyStrip cat == "") <;>
    simp [hk, hle, hcat]

theorem specValid_validCode {c : Candidate} (h : specValid c = true) :
    validCode c = true := by
  obtain ⟨d, k, cat, a, ds⟩ := c
  simp only [specValid, Bool.and_eq_true] at h
  obtain ⟨⟨⟨⟨hpres, hdate⟩, hkind⟩, hamt⟩, hcat⟩ := h
  simp only [validCode, Bool.and_eq_true]
  refine ⟨⟨⟨⟨hpres, hdate⟩, hkind⟩, ?_⟩, hcat⟩
  cases a with
  | none => exact absurd hamt (by simp)
  | some av =>
    cases av with
    | convFail m => exact absurd hamt (by simp)
    | conv f =>
      cases f with
      | nan => exact absurd hamt (by simp)
      | num q =>
        simp only [decide_eq_true_eq] at hamt
        simp [pfLe, decide_eq_true_eq, not_le.mpr hamt]

theorem validate_of_specValid {c : Candidate} (h : specValid c = true) :
    validate_transaction c = true := by
  rw [validate_eq_validCode]
  exact specValid_validCode h

theorem valid_shape {c : Candidate} (h : validate_transaction c = true) :
    ∃ dt k cat f desc, c.date = some dt ∧ c.kind = some k ∧
      c.category = some cat ∧ c.amount = some (.conv f) ∧
      c.description = some desc := by
  rw [validate_eq_validCode] at h
  obtain ⟨d, k, cat, a, ds⟩ := c
  simp only [validCode, Bool.and_eq_true] at h
  obtain ⟨⟨⟨⟨hpres, _⟩, _⟩, hamt⟩, _⟩ := h
  simp only [Bool.and_eq_true, Option.isSome_iff_exists] at hpres
  obtain ⟨⟨⟨⟨⟨dt, hd⟩, ⟨kk, hk⟩⟩, ⟨cc, hc⟩⟩, _⟩, ⟨dd, hds⟩⟩ := hpres
  subst hd hk hc hds
  cases a with
  | none => exact absurd hamt (by simp)
  | some av =>
    cases av with
    | convFail m => exact absurd hamt (by simp)
    | conv f => exact ⟨dt, kk, cc, f, dd, rfl, rfl, rfl, rfl, rfl⟩

theorem add_transaction_of_valid {c : Candidate} (h : validate_transaction c = true)
    (ts : List Txn) (newId now : String) (saveOk : Bool) :
    ∃ dt k cat f desc, c.date = some dt ∧ c.kind = some k ∧
      c.category = some cat ∧ c.amount = some (.conv f) ∧
      c.description = some desc ∧
      add_transaction ts c newId now saveOk =
        (saveOk, ts ++ [{ id := newId, date := dt, kind := k, category := cat,
                          amount := f, description := desc, created_at := now }]) := by
  obtain ⟨dt, k, cat, f, desc, hd, hk, hc, ha, hds⟩ := valid_shape h
  refine ⟨dt, k, cat, f, desc, hd, hk, hc, ha, hds, ?_⟩
  simp [add_transaction, h, hd, hk, hc, ha, hds]

theorem add_transaction_of_invalid {c : Candidate}
    (h : validate_transaction c = false) (ts : List Txn) (newId now : String)
    (saveOk : Bool) :
    add_transaction ts c newId now saveOk = (false, ts) := by
  simp [add_transaction, h]

theorem pfAdd_zero_left (a : PyFloat) : pfAdd (.num 0) a = a := by
  cases a <;> simp [pfAdd]

theorem balStep_right_comm (acc : PyFloat × PyFloat) (t u : Txn) :
    balStep (balStep acc t) u = balStep (balStep acc u) t := by
  unfold balStep
  split_ifs <;> simp_all [pfAdd_right_comm]

theorem foldl_balStep_shift : ∀ (l : List Txn) (a b : PyFloat),
    l.foldl balStep (a, b) =
      (pfAdd a (l.foldl balStep (.num 0, .num 0)).1,
       pfAdd b (l.foldl balStep (.num 0, .num 0)).2)
  | [], a, b => by simp [pfAdd_zero_right]
  | t :: l, a, b => by
    have ih := foldl_balStep_shift l
    simp only [List.foldl_cons, balStep]
    split_ifs with h1 h2
    · rw [ih (pfAdd a t.amount) b, ih (pfAdd (.num 0) t.amount) (.num 0)]
      simp [pfAdd_zero_left, pfAdd_assoc]
    · rw [ih a (pfAdd b t.amount), ih (.num 0) (pfAdd (.num 0) t.amount)]
      simp [pfAdd_zero_left, pfAdd_assoc]
    · rw [ih a b, ih (.num 0) (.num 0)]

theorem foldl_balStep_append (l1 l2 : List Txn) :
    (l1 ++ l2).foldl balStep (.num 0, .num 0) =
      (pfAdd ((l1.foldl balStep (.num 0, .num 0)).1)
             ((l2.foldl balStep (.num 0, .num 0)).1),
       pfAdd ((l1.foldl balStep (.num 0, .num 0)).2)
             ((l2.foldl balStep (.num 0, .num 0)).2)) := by
  rw [List.foldl_append]
  rw [show l1.foldl balStep (PyFloat.num 0, PyFloat.num 0) =
      ((l1.foldl balStep (.num 0, .num 0)).1,
       (l1.foldl balStep (.num 0, .num 0)).2) from rfl]
  exact foldl_balStep_shift l2 _ _

theorem foldl_balStep_perm {l1 l2 : List Txn} (h : l1.Perm l2)
    (z : PyFloat × PyFloat) : l1.foldl balStep z = l2.foldl balStep z :=
  h.foldl_eq' (fun x _ y _ acc => balStep_right_comm acc x y) z

theorem pfSub_pfAdd_pfAdd (i1 i2 e1 e2 : PyFloat) :
    pfSub (pfAdd i1 i2) (pfAdd e1 e2) = pfAdd (pfSub i1 e1) (pfSub i2 e2) := by
  cases i1 <;> cases i2 <;> cases e1 <;> cases e2 <;> simp [pfAdd, pfSub] <;>
    ring

theorem update_transaction_not_found (tid : String) (p : Patch) (stamp : String)
    (saveOk : Bool) :
    ∀ ts : List Txn, (∀ u ∈ ts, u.id ≠ tid) →
      update_transaction ts tid p stamp saveOk = (false, ts)
  | [], _ => rfl
  | t :: rest, h => by
    have ht : t.id ≠ tid := h t (List.mem_cons_self t rest)
    have hrest := update_transaction_not_found tid p stamp saveOk rest
      (fun u hu => h u (List.mem_cons_of_mem t hu))
    simp [update_transaction, ht, hrest]

theorem update_transaction_found_invalid (tid : String) (p : Patch)
    (stamp : String) (saveOk : Bool) :
    ∀ (pre : List Txn) (t : Txn) (post : List Txn), (∀ u ∈ pre, u.id ≠ tid) →
      t.id = tid → validate_transaction (mergeCandidate t p) = false →
      update_transaction (pre ++ t :: post) tid p stamp saveOk =
        (false, pre ++ t :: post)
  | [], t, post, _, ht, hv => by simp [update_transaction, ht, hv]
  | u :: pre, t, post, h, ht, hv => by
    have hu : u.id ≠ tid := h u (List.mem_cons_self u pre)
    have ih := update_transaction_found_invalid tid p stamp saveOk pre t post
      (fun v hv' => h v (List.mem_cons_of_mem u hv')) ht hv
    simp [update_transaction, hu, ih]

theorem update_transaction_found_valid (tid : String) (p : Patch)
    (stamp : String) (saveOk : Bool) :
    ∀ (pre : List Txn) (t : Txn) (post : List Txn), (∀ u ∈ pre, u.id ≠ tid) →
      t.id = tid → validate_transaction (mergeCandidate t p) = true →
      update_transaction (pre ++ t :: post) tid p stamp saveOk =
        (saveOk, pre ++ mergedTxn t p stamp :: post)
  | [], t, post, _, ht, hv => by simp [update_transaction, ht, hv]
  | u :: pre, t, post, h, ht, hv => by
    have hu : u.id ≠ tid := h u (List.mem_cons_self u pre)
    have ih := update_transaction_found_valid tid p stamp saveOk pre t post
      (fun v hv' => h v (List.mem_cons_of_mem u hv')) ht hv
    simp [update_transaction, hu, ih]

theorem update_transaction_snd_indep (ts : List Txn) (tid : String) (p : Patch)
    (stamp : String) :
    (update_transaction ts tid p stamp false).2 =
      (update_transaction ts tid p stamp true).2 := by
  induction ts with
  | nil => rfl
  | cons t rest ih =>
    simp only [update_transaction]
    split_ifs <;> simp [ih]

theorem update_transaction_fst_false (ts : List Txn) (tid : String) (p : Patch)
    (stamp : String) :
    (update_transaction ts tid p stamp false).1 = false := by
  induction ts with
  | nil => rfl
  | cons t rest ih =>
    simp only [update_transaction, ih]
    split_ifs <;> rfl

theorem pdateLt_false_iff (a b : PDate) :
    pdateLt a b = false ↔ pdateLe b a = true := by
  simp [pdateLe]

theorem importRows_spec (mkId : ℕ → String) (now : String) (saveOk : Bool) :
    ∀ (rows : List CsvRow) (idx : ℕ) (st : ImpState),
      (importRows mkId now saveOk rows idx st).imported +
          (importRows mkId now saveOk rows idx st).failed =
        st.imported + st.failed + rows.length ∧
      (importRows mkId now saveOk rows idx st).errors.length + st.failed =
        st.errors.length + (importRows mkId now saveOk rows idx st).failed ∧
      ∀ msg ∈ (importRows mkId now saveOk rows idx st).errors,
        msg ∈ st.errors ∨
          ∃ i, idx ≤ i ∧ i < idx + rows.length ∧
            ∃ rest, msg = "Row " ++ toString (i + 1) ++ ": " ++ rest
  | [], idx, st => by
    refine ⟨by simp [importRows], by simp [importRows], ?_⟩
    simp only [importRows]
    exact fun msg h => Or.inl h
  | r :: rows, idx, st => by
    cases hr : r.amount with
    | convFail m =>
      have ih := importRows_spec mkId now saveOk rows (idx + 1)
        { st with failed := st.failed + 1
                  errors := st.errors ++
                    ["Row " ++ toString (idx + 1) ++ ": " ++ m] }
      obtain ⟨ih1, ih2, ih3⟩ := ih
      simp only [importRows, hr]
      simp only [List.length_append, List.length_cons, List.length_nil] at ih1 ih2 ⊢
      refine ⟨by omega, by omega, ?_⟩
      intro msg hmsg
      rcases ih3 msg hmsg with hmem | ⟨i, hi1, hi2, rest, hrest⟩
      · rcases List.mem_append.mp hmem with h | h
        · exact Or.inl h
        · refine Or.inr ⟨idx, le_refl idx, by omega, m, ?_⟩
          simpa using h
      · exact Or.inr ⟨i, by omega, by omega, rest, hrest⟩
    | conv f =>
      by_cases hok : (add_transaction st.store
          { date := some r.date, kind := some (pyLower r.kind)
            category := some r.category, amount := some (.conv f)
            description := some r.description } (mkId idx) now saveOk).1 = true
      · have ih := importRows_spec mkId now saveOk rows (idx + 1)
          { st with imported := st.imported + 1
                    store := (add_transaction st.store
                      { date := some r.date, kind := some (pyLower r.kind)
                        category := some r.category, amount := some (.conv f)
                        description := some r.description } (mkId idx) now saveOk).2 }
        obtain ⟨ih1, ih2, ih3⟩ := ih
        simp only [importRows, hr, hok, if_true]
        simp only [List.length_cons] at ih1 ih2 ⊢
        refine ⟨by omega, by omega, ?_⟩
        intro msg hmsg
        rcases ih3 msg hmsg with hmem | ⟨i, hi1, hi2, rest, hrest⟩
        · exact Or.inl hmem
        · exact Or.inr ⟨i, by omega, by omega, rest, hrest⟩
      · have ih := importRows_spec mkId now saveOk rows (idx + 1)
          { st with failed := st.failed + 1
                    errors := st.errors ++
                      ["Row " ++ toString (idx + 1) ++ ": invalid transaction data"]
                    store := (add_transaction st.store
                      { date := some r.date, kind := some (pyLower r.kind)
                        category := some r.category, amount := some (.conv f)
                        description := some r.description } (mkId idx) now saveOk).2 }
        obtain ⟨ih1, ih2, ih3⟩ := ih
        simp only [importRows, hr]
        rw [if_neg hok]
        simp only [List.length_append, List.length_cons, List.length_nil] at ih1 ih2 ⊢
        refine ⟨by omega, by omega, ?_⟩
        intro msg hmsg
        rcases ih3 msg hmsg with hmem | ⟨i, hi1, hi2, rest, hrest⟩
        · rcases List.mem_append.mp hmem with h | h
          · exact Or.inl h
          · refine Or.inr ⟨idx, le_refl idx, by omega,
              "invalid transaction data", ?_⟩
            have hmsgeq : msg =
                "Row " ++ toString (idx + 1) ++ ": invalid transaction data" := by
              simpa using h
            rw [hmsgeq]
            simp only [String.append_assoc]
            congr 1
        · exact Or.inr ⟨i, by omega, by omega, rest, hrest⟩

theorem pfLt_eq_num {a b : PyFloat} (h : pfLt a b = true) :
    ∃ x y, a = .num x ∧ b = .num y ∧ x < y := by
  cases a <;> cases b <;> simp_all [pfLt]

theorem pfAdd_eq_num {a b : PyFloat} {c : ℚ} (h : pfAdd a b = .num c) :
    ∃ x y, a = .num x ∧ b = .num y := by
  cases a <;> cases b <;> simp_all [pfAdd]

theorem expenseTxns_length_le (ts : List Txn) :
    (expenseTxns ts).length ≤
      (ts.filter (fun t => pyLower t.kind == "expense")).length := by
  unfold expenseTxns
  rw [((get_transactions_perm ts none none none none).filter _).length_eq,
    List.filter_filter]
  rw [← List.countP_eq_length_filter, ← List.countP_eq_length_filter]
  exact List.countP_mono_left (fun a _ h => by
    simp only [Bool.and_eq_true] at h
    exact h.1)

theorem txn_mem_expenseTxns {ts : List Txn} {t : Txn} (h : t ∈ expenseTxns ts) :
    t ∈ ts ∧ pyLower t.kind = "expense" := by
  unfold expenseTxns at h
  obtain ⟨hmem, hexp⟩ := List.mem_filter.mp h
  exact ⟨(mem_get_transactions.mp hmem).1, by simpa using hexp⟩

theorem mem_detect_anomalies {ts : List Txn} {stdDev mult : PyFloat}
    {a : Anomaly} (h : a ∈ detect_anomalies ts stdDev mult) :
    a.transaction ∈ ts ∧ pyLower a.transaction.kind = "expense" ∧
      pfGt a.transaction.amount (anomalyThreshold ts stdDev mult) = true ∧
      a.deviation = pyRound2 (if pfGt stdDev (.num 0) then
        pfDiv (pfSub a.transaction.amount (expenseMean ts)) stdDev
      else .num 0) := by
  unfold detect_anomalies at h
  split at h
  · simp at h
  · rw [List.mem_insertionSort] at h
    obtain ⟨t, ht, hg⟩ := List.mem_filterMap.mp h
    split at hg
    · obtain rfl := Option.some_inj.mp hg
      obtain ⟨hts, hexp⟩ := txn_mem_expenseTxns ht
      exact ⟨hts, hexp, by assumption, rfl⟩
    · exact absurd hg (by simp)

theorem detect_dev_num {ts : List Txn} {stdDev mult : PyFloat} {a : Anomaly}
    (h : a ∈ detect_anomalies ts stdDev mult) :
    ∃ q, a.deviation = .num q := by
  obtain ⟨_, _, hgt, hdev⟩ := mem_detect_anomalies h
  by_cases hs : pfGt stdDev (.num 0) = true
  · obtain ⟨c, x, hthr, hamt, _⟩ := pfLt_eq_num hgt
    obtain ⟨m, ms, hmean, hms⟩ := pfAdd_eq_num hthr
    obtain ⟨z, sdev, _, hsd, _⟩ := pfLt_eq_num hs
    rw [hdev, if_pos hs, hamt, hmean, hsd]
    exact ⟨_, rfl⟩
  · rw [hdev, if_neg hs]
    exact ⟨_, rfl⟩

theorem detect_sorted (ts : List Txn) (stdDev mult : PyFloat) :
    (detect_anomalies ts stdDev mult).Sorted devGe := by
  unfold detect_anomalies
  split
  · exact List.sorted_nil
  · exact List.sorted_insertionSort _ _

theorem detect_pairwise (ts : List Txn) (stdDev mult : PyFloat) :
    (detect_anomalies ts stdDev mult).Pairwise
      (fun a b => pfGe a.deviation b.deviation = true) := by
  refine List.Pairwise.imp_of_mem ?_ (detect_sorted ts stdDev mult)
  intro a b ha hb hr
  obtain ⟨qa, hqa⟩ := detect_dev_num ha
  obtain ⟨qb, hqb⟩ := detect_dev_num hb
  have hr' : qOf b.deviation ≤ qOf a.deviation := hr
  rw [hqa, hqb] at hr' ⊢
  simpa [pfGe, pfLe, qOf] using hr'

theorem detect_anomalies_too_few {ts : List Txn} {stdDev mult : PyFloat}
    (h : (ts.filter (fun t => pyLower t.kind == "expense")).length < 3) :
    detect_anomalies ts stdDev mult = [] := by
  unfold detect_anomalies
  rw [if_pos (lt_of_le_of_lt (expenseTxns_length_le ts) h)]

theorem mem_setup_budget_alerts {ts : List Txn}
    {budgets : List (String × PyFloat)} {ms now : PDate} {a : BudgetAlert}
    (h : a ∈ setup_budget_alerts ts budgets ms now) :
    pfGe a.percentage (.num 60) = true ∧
      a.level = (if pfGe a.percentage (.num 100) then "critical"
        else if pfGe a.percentage (.num 80) then "warning" else "info") ∧
      ∃ b ∈ budgets, a.category = b.1 ∧ a.budget = b.2 ∧
        a.spent = get_category_spending ts b.1 ms now := by
  unfold setup_budget_alerts at h
  obtain ⟨b, hb, hg⟩ := List.mem_filterMap.mp h
  dsimp only at hg
  split at hg <;> split at hg <;>
    first
      | (obtain rfl := Option.some_inj.mp hg
         exact ⟨by assumption, rfl, b, hb, rfl, rfl, rfl⟩)
      | exact absurd hg (by simp)

theorem expenseTxns_ce5 : expenseTxns ce5 = ce5 := by decide

theorem expenseMean_ce5 : expenseMean ce5 = .num 10 := by
  rw [expenseMean, expenseTxns_ce5]
  simp only [ce5, List.map_cons, List.map_nil, pfSum, List.foldl_cons,
    List.foldl_nil, pfAdd, List.length_cons, List.length_nil, pfDiv,
    PyFloat.num.injEq]
  norm_num

theorem anomalyThreshold_ce5 :
    anomalyThreshold ce5 (.num 3) (.num 1) = .num 13 := by
  rw [anomalyThreshold, expenseMean_ce5]
  simp only [pfMul, pfAdd, PyFloat.num.injEq]
  norm_num

theorem pyRound2_fivethirds : pyRound2 (.num (5/3)) = .num (167/100) := by
  have hfl : Int.floor ((5/3 : ℚ) * 100) = 166 := by
    norm_num [Int.floor_eq_iff]
  simp only [pyRound2, hfl]
  norm_num

theorem pyRound2_thirteen : pyRound2 (.num 13) = .num 13 := by
  have hfl : Int.floor ((13 : ℚ) * 100) = 1300 := by
    norm_num [Int.floor_eq_iff]
  simp only [pyRound2, hfl]
  norm_num

theorem detect_ce5 : detect_anomalies ce5 (.num 3) (.num 1) = [a5] := by
  have c1 : pfGt (PyFloat.num 15) (.num 13) = true := by decide
  have c2 : pfGt (PyFloat.num 7) (.num 13) = false := by decide
  have c3 : pfGt (PyFloat.num 9) (.num 13) = false := by decide
  have c4 : pfGt (PyFloat.num 10) (.num 13) = false := by decide
  have c5 : pfGt (PyFloat.num 3) (.num 0) = true := by decide
  have hd : pfDiv (pfSub (.num 15) (.num 10)) (.num 3) = PyFloat.num (5/3) := by
    simp only [pfSub, pfDiv, PyFloat.num.injEq]
    norm_num
  unfold detect_anomalies
  rw [if_neg (by rw [expenseTxns_ce5]; decide)]
  rw [expenseTxns_ce5, anomalyThreshold_ce5, expenseMean_ce5]
  simp only [ce5, List.filterMap_cons, List.filterMap_nil]
  simp [c1, c2, c3, c4, c5, hd, pyRound2_fivethirds, pyRound2_thirteen, a5,
    List.insertionSort, List.orderedInsert]

theorem get_category_spending_ce9 :
    get_category_spending ce9 "Food" ⟨2024, 1, 1⟩ ⟨2024, 1, 31⟩ = .num 250 := by
  unfold get_category_spending
  rw [show ((get_transactions ce9 (some ⟨2024, 1, 1⟩) (some ⟨2024, 1, 31⟩)
        none none).filter
      (fun t => t.kind == "expense" && t.category == "Food")) = ce9 from by decide]
  simp only [ce9, List.map_cons, List.map_nil, pfSum, List.foldl_cons,
    List.foldl_nil, pfAdd, PyFloat.num.injEq]
  norm_num

theorem eval9 :
    setup_budget_alerts ce9 [("Food", .num 300)] ⟨2024, 1, 1⟩ ⟨2024, 1, 31⟩ =
      [alert9] := by
  have husage : pfMul (pfDiv (.num 250) (.num 300)) (.num 100) =
      PyFloat.num (250/3) := by
    simp only [pfDiv, pfMul, PyFloat.num.injEq]
    norm_num
  have h100 : pfGe (PyFloat.num (250/3)) (.num 100) = false := by
    simp only [pfGe, pfLe, decide_eq_false_iff_not]
    norm_num
  have h80 : pfGe (PyFloat.num (250/3)) (.num 80) = true := by
    simp only [pfGe, pfLe, decide_eq_true_eq]
    norm_num
  have h60 : pfGe (PyFloat.num (250/3)) (.num 60) = true := by
    simp only [pfGe, pfLe, decide_eq_true_eq]
    norm_num
  have hrem : pyMax0 (pfSub (.num 300) (.num 250)) = PyFloat.num 50 := by
    simp only [pfSub, pyMax0, pfGt, pfLt]
    norm_num
  unfold setup_budget_alerts
  simp only [List.filterMap_cons, List.filterMap_nil]
  rw [get_category_spending_ce9]
  rw [if_pos (show pfGt (PyFloat.num 300) (.num 0) = true from by decide)]
  rw [husage, h100, h80, h60]
  simp [alert9, hrem]

theorem validate_false_of_specInvalidC2 {c : Candidate}
    (h : specInvalidC2 c = true) : validate_transaction c = false := by
  by_contra hne
  have hv : validate_transaction c = true := by
    cases hvt : validate_transaction c
    · exact absurd hvt hne
    · rfl
  obtain ⟨dt, k, cat, f, desc, hd, hk, hc, ha, hds⟩ := valid_shape hv
  rw [validate_eq_validCode] at hv
  obtain ⟨d0, k0, cat0, a0, ds0⟩ := c
  cases hd
  cases hk
  cases hc
  cases ha
  cases hds
  simp only [validCode, Bool.and_eq_true] at hv
  obtain ⟨⟨⟨⟨_, hdate⟩, hkind⟩, hamt⟩, hcat⟩ := hv
  cases f with
  | nan => simp_all [specInvalidC2, Option.isSome_iff_ne_none, pfLe]
  | num q =>
    simp_all [specInvalidC2, Option.isSome_iff_ne_none, pfLe]
    rcases h with h | ⟨h1, h2⟩
    · exact absurd h (by linarith)
    · rcases hkind with rfl | rfl
      · exact h1 rfl
      · exact h2 rfl

theorem add_transaction_false_run (ts : List Txn) (c : Candidate)
    (newId now : String) :
    (add_transaction ts c newId now false).1 = false ∧
      (add_transaction ts c newId now false).2 =
        (add_transaction ts c newId now true).2 := by
  unfold add_transaction
  split
  · split
    · exact ⟨rfl, rfl⟩
    · exact ⟨rfl, rfl⟩
  · exact ⟨rfl, rfl⟩

theorem delete_transaction_false_run (ts : List Txn) (tid : String) :
    (delete_transaction ts tid false).1 = false ∧
      (delete_transaction ts tid false).2 =
        (delete_transaction ts tid true).2 := by
  unfold delete_transaction
  dsimp only
  split_ifs <;> exact ⟨rfl, rfl⟩

theorem txnPasses_iff {sd ed : Option PDate} {kf cf : Option String} {t : Txn} :
    txnPasses sd ed kf cf t = true ↔
      ∃ d, parseDate t.date = some d ∧
        (∀ s, sd = some s → pdateLe s d = true) ∧
        (∀ e, ed = some e → pdateLe d e = true) ∧
        (∀ k, kf = some k → k ≠ "" → t.kind = k) ∧
        (∀ cg, cf = some cg → cg ≠ "" → t.category = cg) := by
  unfold txnPasses
  cases hp : parseDate t.date with
  | none => simp
  | some d =>
    cases sd <;> cases ed <;> cases kf <;> cases cf <;>
      simp_all [pdateLe, or_iff_not_imp_left, and_assoc]

/-! The claims. -/

/-- C1: the claim says `validate` returns true exactly when the five keys are
present, the date parses as `YYYY-MM-DD`, the kind is exactly `income` or
`expense`, the amount converts to a number strictly greater than zero, and
the trimmed category is nonempty.  The code contradicts its own docstring
(`'amount' (float > 0)`): for the amount `float("nan")` — candidate `cNan`,
e.g. the text `nan` or an empty CSV cell — `nan <= 0` is `False`, so
validation accepts an amount that is not strictly greater than zero.  This
theorem evaluates the code at that failing input: validation succeeds while
the claim's predicate (`specValid`) rejects it. -/
theorem C1_validate_nan_bug :
    validate_transaction cNan = true ∧ specValid cNan = false := by decide

/-- C2: a candidate satisfying the validation rules (strictly positive
numeric amount, parseable date, exact kind, nonempty trimmed category, all
five fields present — `specValid`) makes `add_transaction` grow the stored
list by exactly one; a candidate missing a required field, or with amount
≤ 0, an unparsable date, or a kind outside {income, expense}
(`specInvalidC2`) fails validation and leaves the stored list unchanged. -/
theorem C2_add_count (ts : List Txn) (c : Candidate) (newId now : String)
    (saveOk : Bool) :
    (specValid c = true →
      ((add_transaction ts c newId now saveOk).2).length = ts.length + 1) ∧
    (specInvalidC2 c = true →
      validate_transaction c = false ∧
      (add_transaction ts c newId now saveOk).2 = ts) := by
  constructor
  · intro h
    obtain ⟨dt, k, cat, f, desc, _, _, _, _, _, heq⟩ :=
      add_transaction_of_valid (validate_of_specValid h) ts newId now saveOk
    rw [heq]
    simp
  · intro h
    have hv := validate_false_of_specInvalidC2 h
    exact ⟨hv, by rw [add_transaction_of_invalid hv]⟩

/-- Witness for C2 at concrete inputs: the valid `cOk` grows an empty store
to one record; `cZero` (amount 0) is rejected and changes nothing. -/
theorem C2_add_count_witness :
    ((add_transaction [] cOk "TXN_1" "t" true).2).length =
      ([] : List Txn).length + 1 ∧
      (validate_transaction cZero = false ∧
        (add_transaction [] cZero "TXN_1" "t" true).2 = []) :=
  ⟨(C2_add_count [] cOk "TXN_1" "t" true).1 (by decide),
   (C2_add_count [] cZero "TXN_1" "t" true).2 (by decide)⟩

/-- C3 counterexample: the claim says a failed persistence leaves the
in-memory state exactly as before.  Adding the valid `cOk` to an empty
store with a failing save returns `false` but leaves the appended record
in memory: the list is no longer empty. -/
theorem C3_atomicity_ce :
    (add_transaction [] cOk "TXN_1" "t" false).1 = false ∧
      (add_transaction [] cOk "TXN_1" "t" false).2 ≠ [] := by decide

/-- C3 amended: when persistence fails, every mutating operation does
return `false`, but the in-memory list retains the applied mutation — it
equals the list a successful save would have left, not the original
(`add_transaction` appends, `delete_transaction` filters, and
`update_transaction` replaces before `save_data` runs). -/
theorem C3_atomicity_amended (ts : List Txn) (c : Candidate)
    (newId now tid stamp : String) (p : Patch) :
    ((add_transaction ts c newId now false).1 = false ∧
      (add_transaction ts c newId now false).2 =
        (add_transaction ts c newId now true).2) ∧
    ((delete_transaction ts tid false).1 = false ∧
      (delete_transaction ts tid false).2 =
        (delete_transaction ts tid true).2) ∧
    ((update_transaction ts tid p stamp false).1 = false ∧
      (update_transaction ts tid p stamp false).2 =
        (update_transaction ts tid p stamp true).2) :=
  ⟨add_transaction_false_run ts c newId now,
   delete_transaction_false_run ts tid,
   update_transaction_fst_false ts tid p stamp,
   update_transaction_snd_indep ts tid p stamp⟩

/-- C4: `update_transaction` merges the patch over the first record with
the given id and re-validates the merged record before committing.  With
no matching id it returns `false` leaving the list untouched; with an
invalid merged record (e.g. a patch putting the amount to 0) it returns
`false` leaving the original record untouched; on success the merged
record replaces the original and carries the `last_modified` stamp. -/
theorem C4_update_merge (tid : String) (p : Patch) (stamp : String)
    (saveOk : Bool) :
    (∀ ts : List Txn, (∀ u ∈ ts, u.id ≠ tid) →
      update_transaction ts tid p stamp saveOk = (false, ts)) ∧
    (∀ (pre : List Txn) (t : Txn) (post : List Txn),
      (∀ u ∈ pre, u.id ≠ tid) → t.id = tid →
      validate_transaction (mergeCandidate t p) = false →
      update_transaction (pre ++ t :: post) tid p stamp saveOk =
        (false, pre ++ t :: post)) ∧
    (∀ (pre : List Txn) (t : Txn) (post : List Txn),
      (∀ u ∈ pre, u.id ≠ tid) → t.id = tid →
      validate_transaction (mergeCandidate t p) = true →
      update_transaction (pre ++ t :: post) tid p stamp saveOk =
        (saveOk, pre ++ mergedTxn t p stamp :: post) ∧
      (mergedTxn t p stamp).last_modified = some stamp) :=
  ⟨update_transaction_not_found tid p stamp saveOk,
   update_transaction_found_invalid tid p stamp saveOk,
   fun pre t post h ht hv =>
     ⟨update_transaction_found_valid tid p stamp saveOk pre t post h ht hv,
      rfl⟩⟩

/-- Witness for C4 at concrete inputs: an unknown id changes nothing; a
patch putting amount to 0 on `t8a` is rejected leaving it untouched; a
patch putting amount to 2 commits the merged record with the stamp. -/
theorem C4_update_merge_witness :
    update_transaction [t8a] "NOPE" { amount := some (.conv (.num 1)) } "s"
        true = (false, [t8a]) ∧
    update_transaction ([] ++ t8a :: []) "A"
        { amount := some (.conv (.num 0)) } "s" true =
      (false, [] ++ t8a :: []) ∧
    (update_transaction ([] ++ t8a :: []) "A"
        { amount := some (.conv (.num 2)) } "s" true =
      (true, [] ++ mergedTxn t8a { amount := some (.conv (.num 2)) } "s" :: []) ∧
     (mergedTxn t8a { amount := some (.conv (.num 2)) } "s").last_modified =
       some "s") :=
  ⟨(C4_update_merge "NOPE" { amount := some (.conv (.num 1)) } "s" true).1
      [t8a] (by decide),
   (C4_update_merge "A" { amount := some (.conv (.num 0)) } "s" true).2.1
      [] t8a [] (by decide) (by decide) (by decide),
   (C4_update_merge "A" { amount := some (.conv (.num 2)) } "s" true).2.2
      [] t8a [] (by decide) (by decide) (by decide)⟩

/-- C5 counterexample: the claim says each entry's deviation equals
`(amount - mean) / stdev` exactly, but the code stores `round(·, 2)`.  On
`ce5` (expense amounts 15, 7, 9, 9, 10: mean 10, sample variance 9, so
`statistics.stdev` returns exactly 3) with multiplier 1, the single
anomaly's exact deviation is `(15 - 10) / 3 = 5/3`, while the code records
`round(5/3, 2) = 1.67 ≠ 5/3`. -/
theorem C5_deviation_ce :
    sampleVariance [15, 7, 9, 9, 10] = 3 * 3 ∧
    (detect_anomalies ce5 (.num 3) (.num 1)).map Anomaly.deviation =
      [.num (167/100)] ∧
    pfDiv (pfSub (.num 15) (expenseMean ce5)) (.num 3) = .num (5/3) ∧
    (167/100 : ℚ) ≠ 5/3 := by
  refine ⟨?_, ?_, ?_, by norm_num⟩
  · norm_num [sampleVariance, List.foldl_cons, List.foldl_nil,
      List.length_cons, List.length_nil]
  · rw [detect_ce5]
    rfl
  · rw [expenseMean_ce5]
    simp only [pfSub, pfDiv, PyFloat.num.injEq]
    norm_num

/-- C5 amended: `detect_anomalies` returns `[]` whenever fewer than 3
expense transactions are stored; otherwise every entry is an expense
transaction of the store whose amount strictly exceeds
`threshold = mean + multiplier * stdev` of the expense amounts, its
deviation is `(amount - mean) / stdev` when `stdev > 0` (else 0) ROUNDED
to two decimals (half to even), and entries are ordered by descending
(rounded) deviation.  `stdDev` stands for the `statistics.stdev` value. -/
theorem C5_anomalies_amended (ts : List Txn) (stdDev mult : PyFloat) :
    ((ts.filter (fun t => pyLower t.kind == "expense")).length < 3 →
      detect_anomalies ts stdDev mult = []) ∧
    (∀ a ∈ detect_anomalies ts stdDev mult,
      a.transaction ∈ ts ∧ pyLower a.transaction.kind = "expense" ∧
      pfGt a.transaction.amount (anomalyThreshold ts stdDev mult) = true ∧
      a.deviation = pyRound2 (if pfGt stdDev (.num 0) then
        pfDiv (pfSub a.transaction.amount (expenseMean ts)) stdDev
      else .num 0)) ∧
    (detect_anomalies ts stdDev mult).Pairwise
      (fun a b => pfGe a.deviation b.deviation = true) :=
  ⟨fun h => detect_anomalies_too_few h,
   fun _ ha => mem_detect_anomalies ha,
   detect_pairwise ts stdDev mult⟩

/-- Witness for C5 at concrete inputs: a single-expense store yields no
anomalies, and the one anomaly on `ce5` satisfies every clause. -/
theorem C5_anomalies_amended_witness :
    detect_anomalies [t8a] (.num 1) (.num 1) = [] ∧
    (a5.transaction ∈ ce5 ∧ pyLower a5.transaction.kind = "expense" ∧
      pfGt a5.transaction.amount (anomalyThreshold ce5 (.num 3) (.num 1)) =
        true ∧
      a5.deviation = pyRound2 (if pfGt (PyFloat.num 3) (.num 0) then
        pfDiv (pfSub a5.transaction.amount (expenseMean ce5)) (.num 3)
      else .num 0)) :=
  ⟨(C5_anomalies_amended [t8a] (.num 1) (.num 1)).1 (by decide),
   (C5_anomalies_amended ce5 (.num 3) (.num 1)).2.1 a5
     (by rw [detect_ce5]; exact List.mem_singleton_self _)⟩

/-- C6: `calculate_balance` is additive componentwise over any two
date-range queries that partition the full query's records; an empty
filtered set yields the all-zero result rather than an error; and
`balance = total_income - total_expense` always holds. -/
theorem C6_balance_additive (ts : List Txn) (s e s1 e1 s2 e2 : Option PDate)
    (hpart : (get_transactions ts s1 e1 none none ++
        get_transactions ts s2 e2 none none).Perm
      (get_transactions ts s e none none)) :
    ((calculate_balance ts s e).total_income =
        pfAdd (calculate_balance ts s1 e1).total_income
          (calculate_balance ts s2 e2).total_income ∧
      (calculate_balance ts s e).total_expense =
        pfAdd (calculate_balance ts s1 e1).total_expense
          (calculate_balance ts s2 e2).total_expense ∧
      (calculate_balance ts s e).balance =
        pfAdd (calculate_balance ts s1 e1).balance
          (calculate_balance ts s2 e2).balance ∧
      (calculate_balance ts s e).transaction_count =
        (calculate_balance ts s1 e1).transaction_count +
          (calculate_balance ts s2 e2).transaction_count) ∧
    (∀ (ts' : List Txn) (s' e' : Option PDate),
      get_transactions ts' s' e' none none = [] →
      calculate_balance ts' s' e' = ⟨.num 0, .num 0, .num 0, 0⟩) ∧
    (∀ (ts' : List Txn) (s' e' : Option PDate),
      (calculate_balance ts' s' e').balance =
        pfSub (calculate_balance ts' s' e').total_income
          (calculate_balance ts' s' e').total_expense) := by
  refine ⟨?_, ?_, fun _ _ _ => rfl⟩
  · have hfold := foldl_balStep_perm hpart (PyFloat.num 0, PyFloat.num 0)
    rw [foldl_balStep_append] at hfold
    have hlen := hpart.length_eq
    rw [List.length_append] at hlen
    unfold calculate_balance
    dsimp only
    refine ⟨by rw [← hfold], by rw [← hfold], ?_, by omega⟩
    rw [← hfold, pfSub_pfAdd_pfAdd]
  · intro ts' s' e' h
    unfold calculate_balance
    rw [h]
    simp [pfSub]

/-- Witness for C6: the spec's three-transaction scenario split into the
day ranges [Jan 1, Jan 1] and [Jan 2, Jan 3]. -/
theorem C6_balance_additive_witness :
    (calculate_balance store3 none none).total_income =
      pfAdd (calculate_balance store3 (some ⟨2024, 1, 1⟩)
          (some ⟨2024, 1, 1⟩)).total_income
        (calculate_balance store3 (some ⟨2024, 1, 2⟩)
          (some ⟨2024, 1, 3⟩)).total_income :=
  ((C6_balance_additive store3 none none (some ⟨2024, 1, 1⟩)
      (some ⟨2024, 1, 1⟩) (some ⟨2024, 1, 2⟩) (some ⟨2024, 1, 3⟩)
      (by decide)).1).1

/-- C7: when any of the five required columns is absent from the CSV
header, the import short-circuits with zero imports, zero failures, a
single descriptive error and an unchanged store; otherwise every row is
fed through `add_transaction`, each failure contributing exactly one
`Row i: ...` message carrying its 1-based position without aborting the
remaining rows, and the success flag is true exactly when at least one
row imported and none failed. -/
theorem C7_import_csv (ts : List Txn) (header : List String)
    (rows : List CsvRow) (mkId : ℕ → String) (now : String) (saveOk : Bool) :
    (¬ (requiredColumns.filter (fun c => !(header.contains c))).isEmpty =
        true →
      (import_from_csv ts header rows mkId now saveOk).1 =
        { success := false, imported_count := 0, failed_count := 0,
          errors := ["Missing required columns: " ++ pyStrListRepr
            (requiredColumns.filter (fun c => !(header.contains c)))] } ∧
      (import_from_csv ts header rows mkId now saveOk).2 = ts) ∧
    ((requiredColumns.filter (fun c => !(header.contains c))).isEmpty =
        true →
      (import_from_csv ts header rows mkId now saveOk).1.imported_count +
          (import_from_csv ts header rows mkId now saveOk).1.failed_count =
        rows.length ∧
      (import_from_csv ts header rows mkId now saveOk).1.errors.length =
        (import_from_csv ts header rows mkId now saveOk).1.failed_count ∧
      (import_from_csv ts header rows mkId now saveOk).1.success =
        (decide ((import_from_csv ts header rows mkId now
            saveOk).1.imported_count > 0) &&
          (import_from_csv ts header rows mkId now saveOk).1.failed_count
            == 0) ∧
      (∀ msg ∈ (import_from_csv ts header rows mkId now saveOk).1.errors,
        ∃ i, i < rows.length ∧
          ∃ rest, msg = "Row " ++ toString (i + 1) ++ ": " ++ rest)) := by
  constructor
  · intro h
    unfold import_from_csv
    rw [if_neg h]
    exact ⟨rfl, rfl⟩
  · intro h
    unfold import_from_csv
    rw [if_pos h]
    obtain ⟨h1, h2, h3⟩ := importRows_spec mkId now saveOk rows 0 ⟨0, 0, [], ts⟩
    refine ⟨by simpa using h1, by simpa using h2, rfl, ?_⟩
    intro msg hmsg
    rcases h3 msg hmsg with hmem | ⟨i, _, hlt, rest, hrest⟩
    · simp at hmem
    · exact ⟨i, by omega, rest, hrest⟩

/-- Witness for C7: a header missing `amount` (the spec's scenario)
short-circuits; a well-headed single-row import satisfies the counting
clauses. -/
theorem C7_import_csv_witness :
    ((import_from_csv [] ["date", "type", "category", "description"] []
        mkIdF "n" true).1 =
      { success := false, imported_count := 0, failed_count := 0,
        errors := ["Missing required columns: " ++ pyStrListRepr
          (requiredColumns.filter (fun c =>
            !(["date", "type", "category", "description"].contains c)))] } ∧
      (import_from_csv [] ["date", "type", "category", "description"] []
        mkIdF "n" true).2 = []) ∧
    ((import_from_csv [] requiredColumns [row10] mkIdF "n" true).1.imported_count +
        (import_from_csv [] requiredColumns [row10] mkIdF "n"
          true).1.failed_count = [row10].length ∧
      (import_from_csv [] requiredColumns [row10] mkIdF "n"
          true).1.errors.length =
        (import_from_csv [] requiredColumns [row10] mkIdF "n"
          true).1.failed_count ∧
      (import_from_csv [] requiredColumns [row10] mkIdF "n" true).1.success =
        (decide ((import_from_csv [] requiredColumns [row10] mkIdF "n"
            true).1.imported_count > 0) &&
          (import_from_csv [] requiredColumns [row10] mkIdF "n"
            true).1.failed_count == 0) ∧
      (∀ msg ∈ (import_from_csv [] requiredColumns [row10] mkIdF "n"
          true).1.errors,
        ∃ i, i < [row10].length ∧
          ∃ rest, msg = "Row " ++ toString (i + 1) ++ ": " ++ rest)) :=
  ⟨(C7_import_csv [] ["date", "type", "category", "description"] [] mkIdF
      "n" true).1 (by decide),
   (C7_import_csv [] requiredColumns [row10] mkIdF "n" true).2 (by decide)⟩

/-- C8 counterexample: the claim says the query result is ordered by
ascending date.  `get_transactions` sorts by the raw date STRING, and the
store may hold `strptime`-valid but non-zero-padded dates: on `ce8` the
result places Jan 6 (`"2024-01-06"`) before Jan 5 (`"2024-1-5"`) because
`"2024-01-06" < "2024-1-5"` lexicographically — not ascending by date. -/
theorem C8_order_ce :
    get_transactions ce8 none none none none = [t8b, t8a] ∧
    parseDate t8a.date = some ⟨2024, 1, 5⟩ ∧
    parseDate t8b.date = some ⟨2024, 1, 6⟩ ∧
    ascendingByDate (get_transactions ce8 none none none none) = false := by
  decide

/-- C8 amended: `get_transactions` returns exactly (as a multiset) the
stored records matching all supplied filters — a record matches iff its
date parses (malformed dates are skipped silently), the parsed date lies
within the inclusive bounds with an absent bound unbounded, and supplied
(non-empty) kind/category filters match exactly — ordered by ascending
date STRING (lexicographic), which coincides with chronological order only
for zero-padded dates.  Aliasing (the "defensive copy") is invisible in
this pure model. -/
theorem C8_query (ts : List Txn) (sd ed : Option PDate)
    (kf cf : Option String) :
    (get_transactions ts sd ed kf cf).Perm
      (ts.filter (txnPasses sd ed kf cf)) ∧
    (get_transactions ts sd ed kf cf).Sorted dateStrLe ∧
    (∀ t : Txn, t ∈ get_transactions ts sd ed kf cf ↔
      (t ∈ ts ∧ ∃ d, parseDate t.date = some d ∧
        (∀ s, sd = some s → pdateLe s d = true) ∧
        (∀ e, ed = some e → pdateLe d e = true) ∧
        (∀ k, kf = some k → k ≠ "" → t.kind = k) ∧
        (∀ cg, cf = some cg → cg ≠ "" → t.category = cg))) := by
  refine ⟨get_transactions_perm ts sd ed kf cf,
    get_transactions_sorted ts sd ed kf cf, fun t => ?_⟩
  rw [mem_get_transactions, txnPasses_iff]

/-- Witness for C8: on `ce8` the result is a permutation of the filtered
store, sorted by date string, and membership matches the spelled-out
filter. -/
theorem C8_query_witness :
    (get_transactions ce8 none none none none).Perm
      (ce8.filter (txnPasses none none none none)) ∧
    (get_transactions ce8 none none none none).Sorted dateStrLe ∧
    (t8a ∈ get_transactions ce8 none none none none ↔
      (t8a ∈ ce8 ∧ ∃ d, parseDate t8a.date = some d ∧
        (∀ s, (none : Option PDate) = some s → pdateLe s d = true) ∧
        (∀ e, (none : Option PDate) = some e → pdateLe d e = true) ∧
        (∀ k, (none : Option String) = some k → k ≠ "" → t8a.kind = k) ∧
        (∀ cg, (none : Option String) = some cg → cg ≠ "" →
          t8a.category = cg))) :=
  ⟨(C8_query ce8 none none none none).1,
   (C8_query ce8 none none none none).2.1,
   (C8_query ce8 none none none none).2.2 t8a⟩

/-- C9: every emitted budget alert carries a usage percentage of at least
60, and its level is `critical` at ≥ 100%, `warning` at ≥ 80%, else
`info`; concretely, a `Food` budget of 300 with 250 of current-month
`Food` expense yields exactly one alert with level `warning` and
percentage `250/3` ≈ 83.3. -/
theorem C9_budget_alerts (ts : List Txn)
    (budgets : List (String × PyFloat)) (ms now : PDate) :
    (∀ a ∈ setup_budget_alerts ts budgets ms now,
      pfGe a.percentage (.num 60) = true ∧
      a.level = (if pfGe a.percentage (.num 100) then "critical"
        else if pfGe a.percentage (.num 80) then "warning" else "info")) ∧
    (setup_budget_alerts ce9 [("Food", .num 300)] ⟨2024, 1, 1⟩
        ⟨2024, 1, 31⟩ = [alert9] ∧
      alert9.level = "warning" ∧ alert9.percentage = .num (250/3) ∧
      (833/10 : ℚ) ≤ 250/3 ∧ (250/3 : ℚ) < 834/10) :=
  ⟨fun _ ha => ⟨(mem_setup_budget_alerts ha).1,
      (mem_setup_budget_alerts ha).2.1⟩,
   eval9, rfl, rfl, by norm_num, by norm_num⟩

/-- Witness for C9: the scenario's alert satisfies the emission and level
clauses. -/
theorem C9_budget_alerts_witness :
    pfGe alert9.percentage (.num 60) = true ∧
      alert9.level = (if pfGe alert9.percentage (.num 100) then "critical"
        else if pfGe alert9.percentage (.num 80) then "warning"
        else "info") :=
  (C9_budget_alerts ce9 [("Food", .num 300)] ⟨2024, 1, 1⟩ ⟨2024, 1, 31⟩).1
    alert9 (by rw [eval9]; exact List.mem_singleton_self _)

/-- C10: `import_from_csv` lowercases each row's type before validating,
so a row whose type differs from `income`/`expense` only in letter case
(and is otherwise valid) imports successfully and is stored with the
lowercase kind — even though a direct `validate_transaction` of the same
record with the mixed-case kind returns `false`. -/
theorem C10_csv_lowercases_kind (ts : List Txn) (r : CsvRow)
    (mkId : ℕ → String) (now : String)
    (hkind : pyLower r.kind = "income" ∨ pyLower r.kind = "expense")
    (hmixed : r.kind ≠ "income" ∧ r.kind ≠ "expense")
    (hdate : (parseDate r.date).isSome = true)
    (hamt : ∃ q, r.amount = .conv (.num q) ∧ 0 < q)
    (hcat : pyStrip r.category ≠ "") :
    (import_from_csv ts requiredColumns [r] mkId now true).1.imported_count
        = 1 ∧
    (import_from_csv ts requiredColumns [r] mkId now true).1.success =
      true ∧
    (import_from_csv ts requiredColumns [r] mkId now true).2 =
      ts ++ [⟨mkId 0, r.date, pyLower r.kind, r.category,
        amtValOf r.amount, r.description, now, none⟩] ∧
    validate_transaction ⟨some r.date, some r.kind, some r.category,
      some r.amount, some r.description⟩ = false := by
  obtain ⟨q, hq, hqpos⟩ := hamt
  have hvalid : validate_transaction
      ⟨some r.date, some (pyLower r.kind), some r.category,
        some (.conv (.num q)), some r.description⟩ = true := by
    apply validate_of_specValid
    simp only [specValid, Bool.and_eq_true]
    refine ⟨⟨⟨⟨by simp, hdate⟩, ?_⟩, by simp [hqpos]⟩, by simpa using hcat⟩
    rcases hkind with h | h <;> simp [h]
  obtain ⟨dt, k, cat, f, desc, hd, hk, hc, ha, hds, heq⟩ :=
    add_transaction_of_valid hvalid ts (mkId 0) now true
  rw [Option.some_inj] at hd hk hc hds
  have hf : PyFloat.num q = f := by
    have hax := Option.some_inj.mp ha
    exact AmtConv.conv.inj hax
  subst hd hk hc hds hf
  have hrun : importRows mkId now true [r] 0 ⟨0, 0, [], ts⟩ =
      ⟨1, 0, [], ts ++ [⟨mkId 0, r.date, pyLower r.kind, r.category,
        .num q, r.description, now, none⟩]⟩ := by
    simp only [importRows, hq]
    rw [heq]
    simp [importRows]
  have hval2 : validate_transaction ⟨some r.date, some r.kind,
      some r.category, some r.amount, some r.description⟩ = false := by
    rw [validate_eq_validCode]
    have h1 : (r.kind == "income") = false := by
      simpa using hmixed.1
    have h2 : (r.kind == "expense") = false := by
      simpa using hmixed.2
    simp [validCode, h1, h2]
  refine ⟨?_, ?_, ?_, hval2⟩
  · unfold import_from_csv
    rw [if_pos (by decide), hrun]
  · unfold import_from_csv
    rw [if_pos (by decide), hrun]
    rfl
  · unfold import_from_csv
    rw [if_pos (by decide), hrun]
    rw [hq]
    rfl

/-- Witness for C10: the row `row10` with type `Income` imports into an
empty store and lands with kind `income`, while direct validation of the
mixed-case record fails. -/
theorem C10_csv_lowercases_kind_witness :
    (import_from_csv [] requiredColumns [row10] mkIdF "n"
        true).1.imported_count = 1 ∧
    (import_from_csv [] requiredColumns [row10] mkIdF "n" true).1.success =
      true ∧
    (import_from_csv [] requiredColumns [row10] mkIdF "n" true).2 =
      [] ++ [⟨mkIdF 0, row10.date, pyLower row10.kind, row10.category,
        amtValOf row10.amount, row10.description, "n", none⟩] ∧
    validate_transaction ⟨some row10.date, some row10.kind,
      some row10.category, some row10.amount, some row10.description⟩ =
      false :=
  C10_csv_lowercases_kind [] row10 mkIdF "n" (by decide) (by decide)
    (by decide) ⟨1000, rfl, by norm_num⟩ (by decide)
